import Mathlib

/-!
Verification of the GTG date engine (GTG/core/dates.py).

This file shallowly embeds the `Date` class of `GTG/core/dates.py`:
the proleptic Gregorian calendar arithmetic of Python's `datetime`
module, the accuracy ladder (`fuzzy`, `date`, `datetime`, `timezone`),
single-value casting (`Date._dt_by_accuracy`, `Date.dt_by_accuracy`),
pairwise operand normalisation (`Date._cast_for_operation`) and the
comparison/arithmetic operators built on it, construction
(`Date.__init__`, `Date.__parse_dt_str`), machine formatting
(`Date.__str__`), absolute parsing (`Date.parse` and its helpers) and
recurrence-relative parsing (`Date.parse_from_date` and its helpers).

The process clock (`datetime.now()`, `date.today()`) and the local
timezone offset (`LOCAL_TIMEZONE`) are threaded through as explicit
parameters.  The locale-dependent `strptime` stage of
`Date.__parse_dt_str` (the `DATE_FORMATS` table, whose first and
eighth entries are the process locale's date formats) is likewise an
explicit function parameter.  `gettext` translation is modelled as the
identity (the English base locale), which collapses each localized
dictionary key onto its English twin exactly as the source's
`_('...')` calls do in the base locale.
-/

namespace GtgDates

/-! ## Gregorian calendar (semantics of Python's datetime.date) -/

/-- Python's calendar.isleap. -/
def isleap (y : Nat) : Bool :=
  y % 4 == 0 && (y % 100 != 0 || y % 400 == 0)

/-- Python's calendar.mdays table: day counts per month with February
fixed at 28, NOT adjusted for leap years (index 0 is a filler). -/
def mdays : List Nat := [0, 31, 28, 31, 30, 31, 30, 31, 31, 30, 31, 30, 31]

/-- Real number of days in a month (leap aware), as datetime.date uses
for validity checks. -/
def daysInMonth (y m : Nat) : Nat :=
  if m = 2 then (if isleap y then 29 else 28) else mdays.getD m 0

/-- A Python datetime.date value: year, month, day. -/
structure PyDate where
  year : Nat
  month : Nat
  day : Nat
deriving DecidableEq, Repr

/-- Validity of a PyDate, per datetime.date's constructor checks
(year restricted to Python's MINYEAR..MAXYEAR). -/
def ValidDate (d : PyDate) : Prop :=
  1 ≤ d.year ∧ d.year ≤ 9999 ∧ 1 ≤ d.month ∧ d.month ≤ 12 ∧
    1 ≤ d.day ∧ d.day ≤ daysInMonth d.year d.month

instance (d : PyDate) : Decidable (ValidDate d) := by
  unfold ValidDate; infer_instance

/-- Days in all years strictly before year y (datetime's _days_before_year). -/
def daysBeforeYear (y : Nat) : Nat :=
  (y - 1) * 365 + (y - 1) / 4 - (y - 1) / 100 + (y - 1) / 400

/-- Days in year y strictly before month m (datetime's _days_before_month). -/
def daysBeforeMonth (y m : Nat) : Nat :=
  (List.range (m - 1)).foldl (fun acc i => acc + daysInMonth y (i + 1)) 0

/-- Python date.toordinal: day number counting from 0001-01-01 = 1. -/
def toOrdinal (d : PyDate) : Nat :=
  daysBeforeYear d.year + daysBeforeMonth d.year d.month + d.day

/-- Locate the month for a given 1-based day-of-year, scanning the at
most twelve months structurally. -/
def monthFromYdayAux : Nat → Nat → Nat → Nat → PyDate
  | 0, y, m, n => ⟨y, m, n⟩
  | fuel + 1, y, m, n =>
    if m < 12 then
      let dim := daysInMonth y m
      if n ≤ dim then ⟨y, m, n⟩ else monthFromYdayAux fuel y (m + 1) (n - dim)
    else ⟨y, 12, n⟩

/-- Locate the month for a given 1-based day-of-year. -/
def monthFromYday (y : Nat) (m : Nat) (n : Nat) : PyDate :=
  monthFromYdayAux 12 y m n

/-- Python date.fromordinal (datetime's _ord2ymd algorithm). -/
def ofOrdinal (n0 : Nat) : PyDate :=
  let n := n0 - 1
  let n400 := n / 146097
  let r400 := n % 146097
  let n100 := r400 / 36524
  let r100 := r400 % 36524
  let n4 := r100 / 1461
  let r4 := r100 % 1461
  let n1 := r4 / 365
  let r1 := r4 % 365
  let year := n400 * 400 + n100 * 100 + n4 * 4 + n1 + 1
  if n1 = 4 ∨ n100 = 4 then ⟨year - 1, 12, 31⟩
  else monthFromYday year 1 (r1 + 1)

/-- date + timedelta(days = k): ordinal arithmetic. -/
def PyDate.addDays (d : PyDate) (k : Int) : PyDate :=
  ofOrdinal ((toOrdinal d + k).toNat)

/-- Python date.weekday(): Monday = 0. -/
def weekday (d : PyDate) : Nat := (toOrdinal d + 6) % 7

/-- Three-way comparison of dates, as date._cmp compares the
(year, month, day) tuples. -/
def pdateCmp (a b : PyDate) : Ordering :=
  (compare a.year b.year).then ((compare a.month b.month).then (compare a.day b.day))

/-- Boolean date <= date. -/
def PyDate.leB (a b : PyDate) : Bool := pdateCmp a b != Ordering.gt

/-! ## datetime.datetime and timedelta -/

/-- A Python datetime.datetime: calendar date, microseconds since
midnight, and an optional fixed UTC offset in minutes (none = naive). -/
structure PyDateTime where
  date : PyDate
  usec : Nat
  tz : Option Int
deriving DecidableEq, Repr

/-- Microseconds per day. -/
def usecPerDay : Nat := 86400000000

/-- datetime + timedelta(days = k): the time of day is unchanged. -/
def dtAddDays (t : PyDateTime) (k : Nat) : PyDateTime :=
  ⟨t.date.addDays k, t.usec, t.tz⟩

/-- datetime + timedelta of k microseconds (k may be negative). -/
def dtAddUsec (t : PyDateTime) (k : Int) : PyDateTime :=
  let total : Int := (toOrdinal t.date : Int) * usecPerDay + t.usec + k
  let ord : Int := Int.fdiv total usecPerDay
  ⟨ofOrdinal ord.toNat, (total - ord * usecPerDay).toNat, t.tz⟩

/-- The UTC instant of an aware datetime (microseconds from the epoch
of ordinal 0), treating a naive datetime as offset 0. -/
def dtInstant (t : PyDateTime) : Int :=
  (toOrdinal t.date : Int) * usecPerDay + t.usec - (t.tz.getD 0) * 60000000

/-- Python datetime equality: naive values compare by fields, aware
values compare as instants, and mixing naive with aware is False. -/
def pyDtEqB (a b : PyDateTime) : Bool :=
  match a.tz, b.tz with
  | Option.none, Option.none => a.date == b.date && a.usec == b.usec
  | some _, some _ => dtInstant a == dtInstant b
  | _, _ => false

/-- Python datetime three-way comparison; mixing naive with aware
raises TypeError, modelled as no result. -/
def pyDtCmp (a b : PyDateTime) : Option Ordering :=
  match a.tz, b.tz with
  | Option.none, Option.none => some ((pdateCmp a.date b.date).then (compare a.usec b.usec))
  | some _, some _ => some (compare (dtInstant a) (dtInstant b))
  | _, _ => Option.none

/-- Decidable equality for Except results. -/
instance {e a : Type} [DecidableEq e] [DecidableEq a] : DecidableEq (Except e a) := fun x y =>
  match x, y with
  | .ok u, .ok v =>
    if h : u = v then isTrue (by rw [h]) else isFalse (by intro hc; injection hc; contradiction)
  | .error u, .error v =>
    if h : u = v then isTrue (by rw [h]) else isFalse (by intro hc; injection hc; contradiction)
  | .ok _, .error _ => isFalse (by intro hc; injection hc)
  | .error _, .ok _ => isFalse (by intro hc; injection hc)

/-! ## The accuracy ladder and the stored value of a Date -/

/-- The module's fuzzy sentinel codes NOW, SOON, SOMEDAY, NODATE. -/
def NOW : Nat := 0

/-- Fuzzy sentinel code for soon. -/
def SOON : Nat := 1

/-- Fuzzy sentinel code for someday. -/
def SOMEDAY : Nat := 2

/-- Fuzzy sentinel code for no date. -/
def NODATE : Nat := 3

/-- str.lower, character by character. -/
def pyLower (s : String) : String := String.mk (s.data.map Char.toLower)

/-- Python int() restricted to plain non-empty digit strings (the only
form the parsers below ever feed it). -/
def pyToNat (s : String) : Option Nat :=
  if s.data.isEmpty then Option.none
  else s.data.foldl
    (fun acc c =>
      acc.bind fun n =>
        if c.isDigit then some (n * 10 + (c.toNat - 48)) else Option.none)
    (some 0)

/-- str.startswith('0'). -/
def pyStartsWith0 (s : String) : Bool :=
  match s.data with
  | '0' :: _ => true
  | _ => false

/-- The Accuracy enum of GTG.core.dates. -/
inductive Accuracy where
  | fuzzy
  | date
  | datetime
  | timezone
deriving DecidableEq, Repr

/-- A Date's stored dt_value: a fuzzy sentinel code (an int), a
datetime.date, or a datetime.datetime (naive or timezone-aware). -/
inductive DtValue where
  | fuzzy (k : Nat)
  | d (dd : PyDate)
  | dt (t : PyDateTime)
deriving DecidableEq, Repr

/-- The accuracy property of Date: an aware datetime is timezone, a
naive datetime is datetime, a date is date, anything else is fuzzy. -/
def DtValue.accuracy : DtValue → Accuracy
  | .dt t => if t.tz.isSome then .timezone else .datetime
  | .d _ => .date
  | .fuzzy _ => .fuzzy

/-- A fuzzy tag for which dt_by_accuracy's delta_days table has an
entry (the Now tag 0 raises KeyError there). -/
def DtValue.wf : DtValue → Bool
  | .fuzzy k => k == SOON || k == SOMEDAY || k == NODATE
  | _ => true

/-! ## Casting a single value between accuracies -/

/-- Failure modes of the low-level caster: the delta_days KeyError in
dt_by_accuracy, the assert/raise branches of _dt_by_accuracy, and the
AttributeError of calling .date() on a non-datetime value. -/
inductive CastErr where
  | keyError
  | assertionError
  | attributeError
deriving DecidableEq, Repr

/-- Date._dt_by_accuracy(dt_value, accuracy, wanted_accuracy).  The
actual accuracy argument is always the value's own accuracy at every
call site, so it is recomputed here from the value.  The assert
branches fire when the actual accuracy is neither of the two the
wanted accuracy expects; the final raise fires for a fuzzy wanted
accuracy. -/
def dtByAccuracyAux (loc : Int) (dtv : DtValue) (wanted : Accuracy) :
    Except CastErr DtValue :=
  match wanted with
  | .timezone =>
    match dtv with
    | .d dd => .ok (.dt ⟨dd, 0, some loc⟩)
    | .dt t =>
      if t.tz.isSome then .error .assertionError
      else .ok (.dt ⟨t.date, t.usec, some loc⟩)
    | .fuzzy _ => .error .assertionError
  | .datetime =>
    match dtv with
    | .d dd => .ok (.dt ⟨dd, 0, Option.none⟩)
    | .dt t =>
      match t.tz with
      | some z => .ok (.dt (dtAddUsec ⟨t.date, t.usec, Option.none⟩ ((loc - z) * 60000000)))
      | Option.none => .error .assertionError
    | .fuzzy _ => .error .assertionError
  | .date =>
    match dtv with
    | .dt t => .ok (.d t.date)
    | _ => .error .attributeError
  | .fuzzy => .error .assertionError

/-- The delta_days table of dt_by_accuracy; looking up the Now tag (or
any other code) is a KeyError. -/
def deltaDaysFuzzy (k : Nat) : Except CastErr Nat :=
  if k = SOON then .ok 15
  else if k = SOMEDAY then .ok 365
  else if k = NODATE then .ok 9999
  else .error .keyError

/-- Date.dt_by_accuracy(wanted): identity at the value's own accuracy;
a fuzzy value is first resolved to now + delta_days and the resulting
concrete value is cast on; otherwise defer to _dt_by_accuracy. -/
def dtByAccuracy (loc : Int) (now : PyDateTime) (dtv : DtValue) (wanted : Accuracy) :
    Except CastErr DtValue :=
  if wanted = dtv.accuracy then .ok dtv
  else
    match dtv with
    | .fuzzy k =>
      match deltaDaysFuzzy k with
      | .error e => .error e
      | .ok delta =>
        let g : DtValue := .dt (dtAddDays now delta)
        if g.accuracy = wanted then .ok g
        else dtByAccuracyAux loc g wanted
    | _ => dtByAccuracyAux loc dtv wanted

/-! ## Pairwise operand normalisation and the operators -/

/-- The second operand of an operator: a bare timedelta (modelled as a
signed count of microseconds) or another Date's stored value. -/
inductive OpOther where
  | delta (t : Int)
  | dte (v : DtValue)
deriving DecidableEq, Repr

/-- One slot of the normalised operand pair. -/
inductive OpVal where
  | val (v : DtValue)
  | td (t : Int)
deriving DecidableEq, Repr

/-- Failure modes of _cast_for_operation and of the operators using
it: comparing against a bare timedelta, a Python TypeError when the
final raw operation is applied to incompatible values, or a failure
bubbling up from the caster. -/
inductive OpError where
  | invalidComparison
  | typeError
  | cast (e : CastErr)
deriving DecidableEq, Repr

/-- Cast both operands to one accuracy (the body of the loop in
_cast_for_operation). -/
def castBothTo (loc : Int) (now : PyDateTime) (a b : DtValue) (acc : Accuracy) :
    Except OpError (OpVal × OpVal) :=
  match dtByAccuracy loc now a acc, dtByAccuracy loc now b acc with
  | .ok x, .ok y => .ok (.val x, .val y)
  | .error e, _ => .error (.cast e)
  | .ok _, .error e => .error (.cast e)

/-- Date._cast_for_operation(other, is_comparison): a timedelta is
rejected for comparisons and passed through raw for arithmetic; equal
accuracies return the raw values; otherwise both operands are cast to
the first of date, datetime, timezone that equals either operand's
accuracy; the final fallback casts both to fuzzy. -/
def castForOperation (loc : Int) (now : PyDateTime) (selfv : DtValue)
    (other : OpOther) (isComparison : Bool) : Except OpError (OpVal × OpVal) :=
  match other with
  | .delta t => if isComparison then .error .invalidComparison else .ok (.val selfv, .td t)
  | .dte o =>
    if selfv.accuracy = o.accuracy then .ok (.val selfv, .val o)
    else if selfv.accuracy = .date ∨ o.accuracy = .date then
      castBothTo loc now selfv o .date
    else if selfv.accuracy = .datetime ∨ o.accuracy = .datetime then
      castBothTo loc now selfv o .datetime
    else if selfv.accuracy = .timezone ∨ o.accuracy = .timezone then
      castBothTo loc now selfv o .timezone
    else
      castBothTo loc now selfv o .fuzzy

/-- Python == on two stored values of the same kind; cross-kind
equality is False (int vs date, date vs datetime, naive vs aware). -/
def dtvEqB : DtValue → DtValue → Bool
  | .fuzzy a, .fuzzy b => a == b
  | .d a, .d b => a == b
  | .dt a, .dt b => pyDtEqB a b
  | _, _ => false

/-- Python == lifted to normalised operand slots. -/
def opValEqB : OpVal → OpVal → Bool
  | .val a, .val b => dtvEqB a b
  | .td a, .td b => a == b
  | _, _ => false

/-- Python three-way ordering on stored values; cross-kind ordering is
a TypeError, modelled as no result. -/
def dtvCmp : DtValue → DtValue → Option Ordering
  | .fuzzy a, .fuzzy b => some (compare a b)
  | .d a, .d b => some (pdateCmp a b)
  | .dt a, .dt b => pyDtCmp a b
  | _, _ => Option.none

/-- Three-way ordering lifted to normalised operand slots. -/
def opValCmp : OpVal → OpVal → Option Ordering
  | .val a, .val b => dtvCmp a b
  | .td a, .td b => some (compare a b)
  | _, _ => Option.none

/-- Date.__eq__: normalise (as a comparison) then apply raw ==. -/
def dateEq (loc : Int) (now : PyDateTime) (a : DtValue) (other : OpOther) :
    Except OpError Bool :=
  (castForOperation loc now a other true).map fun p => opValEqB p.1 p.2

/-- Shared body of the four ordering operators. -/
def dateCmpOp (loc : Int) (now : PyDateTime) (a : DtValue) (other : OpOther)
    (keep : Ordering → Bool) : Except OpError Bool :=
  match castForOperation loc now a other true with
  | .error e => .error e
  | .ok p =>
    match opValCmp p.1 p.2 with
    | some o => .ok (keep o)
    | Option.none => .error .typeError

/-- Date.__lt__. -/
def dateLt (loc : Int) (now : PyDateTime) (a : DtValue) (other : OpOther) :
    Except OpError Bool :=
  dateCmpOp loc now a other (fun o => o == Ordering.lt)

/-- Date.__le__. -/
def dateLe (loc : Int) (now : PyDateTime) (a : DtValue) (other : OpOther) :
    Except OpError Bool :=
  dateCmpOp loc now a other (fun o => o != Ordering.gt)

/-- Date.__gt__. -/
def dateGt (loc : Int) (now : PyDateTime) (a : DtValue) (other : OpOther) :
    Except OpError Bool :=
  dateCmpOp loc now a other (fun o => o == Ordering.gt)

/-- Date.__ge__. -/
def dateGe (loc : Int) (now : PyDateTime) (a : DtValue) (other : OpOther) :
    Except OpError Bool :=
  dateCmpOp loc now a other (fun o => o != Ordering.lt)

/-- Python + on a normalised operand pair: date/datetime plus a
timedelta; every other combination is a TypeError (in particular an
int fuzzy tag plus a timedelta, and date plus date). -/
def opAddRaw : OpVal → OpVal → Except OpError DtValue
  | .val (.d a), .td t => .ok (.d (a.addDays (Int.fdiv t usecPerDay)))
  | .val (.dt a), .td t => .ok (.dt (dtAddUsec a t))
  | .td t, .val (.d a) => .ok (.d (a.addDays (Int.fdiv t usecPerDay)))
  | .td t, .val (.dt a) => .ok (.dt (dtAddUsec a t))
  | _, _ => .error .typeError

/-- Python - on a normalised operand pair: date/datetime minus a
timedelta, or the difference of two values of the same kind. -/
def opSubRaw : OpVal → OpVal → Except OpError OpVal
  | .val (.d a), .td t => .ok (.val (.d (a.addDays (Int.fdiv (-t) usecPerDay))))
  | .val (.dt a), .td t => .ok (.val (.dt (dtAddUsec a (-t))))
  | .val (.d a), .val (.d b) =>
    .ok (.td (((toOrdinal a : Int) - toOrdinal b) * usecPerDay))
  | .val (.dt a), .val (.dt b) =>
    match a.tz, b.tz with
    | Option.none, Option.none => .ok (.td (dtInstant a - dtInstant b))
    | some _, some _ => .ok (.td (dtInstant a - dtInstant b))
    | _, _ => .error .typeError
  | _, _ => .error .typeError

/-- Date.__add__: normalise (as arithmetic) then apply raw +. -/
def dateAddOp (loc : Int) (now : PyDateTime) (a : DtValue) (other : OpOther) :
    Except OpError DtValue :=
  match castForOperation loc now a other false with
  | .error e => .error e
  | .ok p => opAddRaw p.1 p.2

/-- Date.__sub__: normalise (as arithmetic) then apply raw -. -/
def dateSubOp (loc : Int) (now : PyDateTime) (a : DtValue) (other : OpOther) :
    Except OpError OpVal :=
  match castForOperation loc now a other false with
  | .error e => .error e
  | .ok p => opSubRaw p.1 p.2

/-! ## Construction: Date.__init__ and Date.__parse_dt_str -/

/-- Numeric value of a decimal digit character. -/
def digitVal (c : Char) : Option Nat :=
  if c.isDigit then some (c.toNat - 48) else Option.none

/-- A non-empty all-digit character list as a number. -/
def natOfDigits (cs : List Char) : Option Nat :=
  if cs.isEmpty then Option.none
  else cs.foldl (fun acc c => acc.bind fun n => (digitVal c).map fun d => n * 10 + d) (some 0)

/-- date.fromisoformat on a character list: exactly YYYY-MM-DD with a
valid Gregorian date (year 1..9999). -/
def parseISODateCore (cs : List Char) : Option PyDate :=
  match cs with
  | [y1, y2, y3, y4, h1, m1, m2, h2, d1, d2] =>
    if h1 = '-' ∧ h2 = '-' then do
      let y ← natOfDigits [y1, y2, y3, y4]
      let mo ← natOfDigits [m1, m2]
      let dy ← natOfDigits [d1, d2]
      if 1 ≤ y ∧ 1 ≤ mo ∧ mo ≤ 12 ∧ 1 ≤ dy ∧ dy ≤ daysInMonth y mo then
        some ⟨y, mo, dy⟩
      else Option.none
    else Option.none
  | _ => Option.none

/-- date.fromisoformat. -/
def parseISODate (s : String) : Option PyDate := parseISODateCore s.toList

/-- The fractional-second part of an ISO time: exactly 3 or 6 digits
after the dot, as microseconds, returning the leftover characters. -/
def parseISOFrac (cs : List Char) : Option (Nat × List Char) :=
  let digs := cs.takeWhile Char.isDigit
  let rest := cs.drop digs.length
  if digs.length = 3 then (natOfDigits digs).map fun n => (n * 1000, rest)
  else if digs.length = 6 then (natOfDigits digs).map fun n => (n, rest)
  else Option.none

/-- The timezone suffix of an ISO datetime: empty (naive) or a signed
HH:MM offset, as minutes. -/
def parseISOTZ (cs : List Char) : Option (Option Int) :=
  match cs with
  | [] => some Option.none
  | sign :: rest =>
    if sign = '+' ∨ sign = '-' then
      match rest with
      | [a, b, c, d, e] =>
        if c = ':' then do
          let hh ← natOfDigits [a, b]
          let mm ← natOfDigits [d, e]
          if hh ≤ 23 ∧ mm ≤ 59 then
            let off : Int := hh * 60 + mm
            some (some (if sign = '-' then -off else off))
          else Option.none
        else Option.none
      | _ => Option.none
    else Option.none

/-- The time-of-day part of an ISO datetime, HH[:MM[:SS[.ffffff]]],
followed by the timezone suffix; yields microseconds since midnight
and the offset. -/
def parseISOTimePart (cs : List Char) : Option (Nat × Option Int) :=
  match cs with
  | h1 :: h2 :: rest => do
    let hh ← natOfDigits [h1, h2]
    if hh > 23 then Option.none else
    match rest with
    | ':' :: m1 :: m2 :: rest2 => do
      let mm ← natOfDigits [m1, m2]
      if mm > 59 then Option.none else
      match rest2 with
      | ':' :: s1 :: s2 :: rest3 => do
        let ss ← natOfDigits [s1, s2]
        if ss > 59 then Option.none else
        match rest3 with
        | '.' :: rest4 => do
          let fr ← parseISOFrac rest4
          let tz ← parseISOTZ fr.2
          some ((((hh * 60 + mm) * 60 + ss) * 1000000 + fr.1, tz))
        | rest4 => do
          let tz ← parseISOTZ rest4
          some ((((hh * 60 + mm) * 60 + ss) * 1000000, tz))
      | rest3 => do
        let tz ← parseISOTZ rest3
        some (((hh * 60 + mm) * 60000000, tz))
    | rest2 => do
      let tz ← parseISOTZ rest2
      some ((hh * 3600000000, tz))
  | _ => Option.none

/-- datetime.fromisoformat: a YYYY-MM-DD prefix, then optionally one
separator character and a time-of-day with optional offset. -/
def parseISODateTime (s : String) : Option PyDateTime :=
  let cs := s.toList
  match parseISODateCore (cs.take 10) with
  | Option.none => Option.none
  | some dd =>
    match cs.drop 10 with
    | [] => some ⟨dd, 0, Option.none⟩
    | _ :: timecs =>
      match parseISOTimePart timecs with
      | some (us, tz) => some ⟨dd, us, tz⟩
      | Option.none => Option.none

/-- A successful result of the DATE_FORMATS strptime stage of
__parse_dt_str: a date (for a date-accuracy format) or a datetime. -/
inductive ConcreteVal where
  | cd (dd : PyDate)
  | cdt (t : PyDateTime)
deriving DecidableEq, Repr

/-- The LOOKUP table restricted to its string keys, applied to the
already-lowercased string.  With identity gettext, the localized keys
coincide with the English ones. -/
def lookupStr (s : String) : Option Nat :=
  if s = "now" then some NOW
  else if s = "soon" then some SOON
  else if s = "later" then some SOMEDAY
  else if s = "someday" then some SOMEDAY
  else if s = "" then some NODATE
  else if s = "none" then some NODATE
  else Option.none

/-- Date.__parse_dt_str: try date.fromisoformat, then
datetime.fromisoformat, then the DATE_FORMATS strptime loop (the
`fp` parameter, which includes the locale formats), then the exact
string 'now' (which reads the live clock), then LOOKUP on the
lowercased string. -/
def parseDtStr (fp : String → Option ConcreteVal) (now : PyDateTime) (s : String) :
    Option DtValue :=
  match parseISODate s with
  | some dd => some (.d dd)
  | Option.none =>
  match parseISODateTime s with
  | some t => some (.dt t)
  | Option.none =>
  match fp s with
  | some (.cd dd) => some (.d dd)
  | some (.cdt t) => some (.dt t)
  | Option.none =>
  if s = "now" then some (.dt now)
  else (lookupStr (pyLower s)).map DtValue.fuzzy

/-- The argument of Date.__init__. -/
inductive DateInput where
  | noneInput
  | str (s : String)
  | pyDate (dd : PyDate)
  | pyDateTime (t : PyDateTime)
  | gtgDate (v : DtValue)
  | int (n : Nat)

/-- Date.__init__: a date/datetime instance is stored raw, another
Date is copied, None / 'None' / '' store NODATE, any other string goes
through __parse_dt_str, the int 0 (the dropped falsy NOW code) stores
the live clock, and the remaining LOOKUP int codes store their fuzzy
tag; anything else raises ValueError (modelled as no result). -/
def dateInit (fp : String → Option ConcreteVal) (now : PyDateTime) :
    DateInput → Option DtValue
  | .pyDate dd => some (.d dd)
  | .pyDateTime t => some (.dt t)
  | .gtgDate v => some v
  | .noneInput => some (.fuzzy NODATE)
  | .str s =>
    if s = "None" ∨ s = "" then some (.fuzzy NODATE)
    else parseDtStr fp now s
  | .int n =>
    if n = 0 then some (.dt now)
    else if n = SOON ∨ n = SOMEDAY ∨ n = NODATE then some (.fuzzy n)
    else Option.none

/-! ## Machine formatting: Date.__str__ -/

/-- A natural number zero-padded to two digits. -/
def pad2 (n : Nat) : String :=
  if n < 10 then "0" ++ toString n else toString n

/-- A natural number zero-padded to four digits. -/
def pad4 (n : Nat) : String :=
  if n < 10 then "000" ++ toString n
  else if n < 100 then "00" ++ toString n
  else if n < 1000 then "0" ++ toString n
  else toString n

/-- A natural number zero-padded to six digits. -/
def pad6 (n : Nat) : String :=
  let s := toString n
  let k := 6 - s.length
  String.mk (List.replicate k '0') ++ s

/-- date.isoformat. -/
def isoDateStr (d : PyDate) : String :=
  pad4 d.year ++ "-" ++ pad2 d.month ++ "-" ++ pad2 d.day

/-- A UTC offset in minutes rendered as the isoformat suffix. -/
def isoTZStr : Option Int → String
  | Option.none => ""
  | some off =>
    let sign := if off < 0 then "-" else "+"
    let a := off.natAbs
    sign ++ pad2 (a / 60) ++ ":" ++ pad2 (a % 60)

/-- datetime.isoformat. -/
def isoDateTimeStr (t : PyDateTime) : String :=
  let ss := t.usec / 1000000
  let us := t.usec % 1000000
  let base := isoDateStr t.date ++ "T" ++ pad2 (ss / 3600) ++ ":" ++
    pad2 (ss / 60 % 60) ++ ":" ++ pad2 (ss % 60)
  let withFrac := if us = 0 then base else base ++ "." ++ pad6 us
  withFrac ++ isoTZStr t.tz

/-- Date.__str__: fuzzy values through a table holding only the Soon,
Someday and NoDate tags (the Now tag is a KeyError, modelled as no
result); concrete values as isoformat. -/
def pyStrDate : DtValue → Option String
  | .fuzzy k =>
    if k = SOON then some "soon"
    else if k = SOMEDAY then some "someday"
    else if k = NODATE then some ""
    else Option.none
  | .d dd => some (isoDateStr dd)
  | .dt t => some (isoDateTimeStr t)

/-! ## The shared textual sub-parsers -/

/-- Day-of-month parsing relative to a base day, the common body of
Date._parse_only_month_day (base = today) and
Date._parse_only_month_day_for_recurrency (base = the anchor date,
already advanced by one day when the task is not new): an int in
1..31 without a leading zero; take that day in the base's month if it
is valid, and roll to the next month (December to January of the next
year) when that attempt failed or does not land strictly after the
base; a rollover to a nonexistent day keeps the previous attempt. -/
def monthDayFrom (base : PyDate) (s : String) : Option PyDate :=
  match pyToNat s with
  | Option.none => Option.none
  | some mday =>
    if mday < 1 ∨ 31 < mday ∨ pyStartsWith0 s then Option.none
    else
      let r1 : Option PyDate :=
        if mday ≤ daysInMonth base.year base.month then
          some ⟨base.year, base.month, mday⟩
        else Option.none
      let ny := if base.month = 12 then base.year + 1 else base.year
      let nm := if base.month = 12 then 1 else base.month + 1
      let needRoll : Bool :=
        match r1 with
        | Option.none => true
        | some r => r.leB base
      if needRoll then
        if mday ≤ daysInMonth ny nm then some ⟨ny, nm, mday⟩ else r1
      else r1

/-- strptime '%Y/%m/%d' (strict four/two/two digit widths). -/
def parseSlashYmd (s : String) : Option PyDate :=
  match s.toList with
  | [y1, y2, y3, y4, c1, m1, m2, c2, d1, d2] =>
    if c1 = '/' ∧ c2 = '/' then do
      let y ← natOfDigits [y1, y2, y3, y4]
      let m ← natOfDigits [m1, m2]
      let d ← natOfDigits [d1, d2]
      if 1 ≤ y ∧ 1 ≤ m ∧ m ≤ 12 ∧ 1 ≤ d ∧ d ≤ daysInMonth y m then
        some ⟨y, m, d⟩
      else Option.none
    else Option.none
  | _ => Option.none

/-- strptime '%Y%m%d' (strict digit widths). -/
def parseYmd8 (s : String) : Option PyDate :=
  match s.toList with
  | [y1, y2, y3, y4, m1, m2, d1, d2] => do
    let y ← natOfDigits [y1, y2, y3, y4]
    let m ← natOfDigits [m1, m2]
    let d ← natOfDigits [d1, d2]
    if 1 ≤ y ∧ 1 ≤ m ∧ m ≤ 12 ∧ 1 ≤ d ∧ d ≤ daysInMonth y m then
      some ⟨y, m, d⟩
    else Option.none
  | _ => Option.none

/-- strptime '%m%d': the default year being 1900, February 29 is
rejected here exactly as strptime rejects it. -/
def parseMd4 (s : String) : Option (Nat × Nat) :=
  match s.toList with
  | [m1, m2, d1, d2] => do
    let m ← natOfDigits [m1, m2]
    let d ← natOfDigits [d1, d2]
    if 1 ≤ m ∧ m ≤ 12 ∧ 1 ≤ d ∧ d ≤ daysInMonth 1900 m then
      some (m, d)
    else Option.none
  | _ => Option.none

/-- Numeric-shorthand parsing relative to a base day, the common body
of Date._parse_numerical_format (base = today) and its recurrency
variant: %Y/%m/%d, %Y%m%d, or %m%d with the year inferred as the
base's year when the month/day has not yet passed, else the next
year. -/
def numericalFrom (base : PyDate) (s : String) : Option PyDate :=
  match parseSlashYmd s with
  | some r => some r
  | Option.none =>
  match parseYmd8 s with
  | some r => some r
  | Option.none =>
  match parseMd4 s with
  | some (m, d) =>
    let y :=
      if m > base.month ∨ (m = base.month ∧ d ≥ base.day) then base.year
      else base.year + 1
    some ⟨y, m, d⟩
  | Option.none => Option.none

/-- Index of an (already lowercased) English weekday name; with
identity gettext the localized names coincide with these. -/
def weekdayIdx (s : String) : Option Nat :=
  if s = "monday" then some 0
  else if s = "tuesday" then some 1
  else if s = "wednesday" then some 2
  else if s = "thursday" then some 3
  else if s = "friday" then some 4
  else if s = "saturday" then some 5
  else if s = "sunday" then some 6
  else Option.none

/-- The weekday offset entered into the formats table: the distance to
the next future occurrence of weekday i from the base day, where
landing on the base's own weekday means a full week ahead. -/
def weekdayOffsetFrom (base : PyDate) (i : Nat) : Nat :=
  let wd := weekday base
  if i ≤ wd then 7 + i - wd else i - wd

/-! ## Absolute parsing: Date.parse -/

/-- Date._parse_only_month_day. -/
def parseOnlyMonthDay (today : PyDate) (s : String) : Option PyDate :=
  monthDayFrom today s

/-- Date._parse_numerical_format. -/
def parseNumericalFormat (today : PyDate) (s : String) : Option PyDate :=
  numericalFrom today s

/-- Date._parse_text_representation: the today-anchored offsets table
('next month' uses the leap-unaware calendar.mdays entry of the
current month) plus the weekday names. -/
def parseTextRepresentation (today : PyDate) (s : String) : Option PyDate :=
  let off? : Option Nat :=
    if s = "today" then some 0
    else if s = "tomorrow" then some 1
    else if s = "next week" then some 7
    else if s = "next month" then some (mdays.getD today.month 0)
    else if s = "next year" then some (365 + if isleap today.year then 1 else 0)
    else (weekdayIdx s).map (weekdayOffsetFrom today)
  off?.map fun off => today.addDays off

/-- Date.parse: sanitize (None to '', lowercase), try construction,
then the bare day-of-month, numeric-shorthand and text parsers;
an unparsable string raises ValueError (modelled as no result). -/
def dateParse (fp : String → Option ConcreteVal) (now : PyDateTime)
    (today : PyDate) (s? : Option String) : Option DtValue :=
  let s := match s? with | some t => pyLower t | Option.none => ""
  match dateInit fp now (.str s) with
  | some v => some v
  | Option.none =>
    let r1 := parseOnlyMonthDay today s
    let r2 := match r1 with | some r => some r | Option.none => parseNumericalFormat today s
    let r3 := match r2 with | some r => some r | Option.none => parseTextRepresentation today s
    r3.map DtValue.d

/-! ## Recurrence-relative parsing: Date.parse_from_date -/

/-- Date._parse_only_month_day_for_recurrency: the anchor is self cast
to date accuracy, advanced by one day when the task is not new. -/
def parseOnlyMonthDayForRecurrency (loc : Int) (now : PyDateTime) (selfv : DtValue)
    (s : String) (newtask : Bool) : Except CastErr (Option PyDate) :=
  match dtByAccuracy loc now selfv .date with
  | .error e => .error e
  | .ok (.d sd0) =>
    let sd := if newtask then sd0 else sd0.addDays 1
    .ok (monthDayFrom sd s)
  | .ok _ => .error .attributeError

/-- Date._parse_numerical_format_for_recurrency. -/
def parseNumericalFormatForRecurrency (loc : Int) (now : PyDateTime) (selfv : DtValue)
    (s : String) (newtask : Bool) : Except CastErr (Option PyDate) :=
  match dtByAccuracy loc now selfv .date with
  | .error e => .error e
  | .ok (.d sd0) =>
    let sd := if newtask then sd0 else sd0.addDays 1
    .ok (numericalFrom sd s)
  | .ok _ => .error .attributeError

/-- The duration/weekday offsets table of
Date._parse_text_representation_for_recurrency: every duration word
has offset 0 for a new task and its full period otherwise ('month'
uses the leap-unaware calendar.mdays entry of the anchor's month);
weekday offsets are independent of the newtask flag. -/
def recurrencyOffset (sd : PyDate) (s : String) (newtask : Bool) : Option Nat :=
  if s = "day" then some (if newtask then 0 else 1)
  else if s = "other-day" then some (if newtask then 0 else 2)
  else if s = "week" then some (if newtask then 0 else 7)
  else if s = "month" then some (if newtask then 0 else mdays.getD sd.month 0)
  else if s = "year" then
    some (if newtask then 0 else 365 + if isleap sd.year then 1 else 0)
  else (weekdayIdx s).map (weekdayOffsetFrom sd)

/-- Date._parse_text_representation_for_recurrency: the anchor is self
cast to date accuracy (with no extra one-day shift here), advanced by
the offset from the table. -/
def parseTextRepresentationForRecurrency (loc : Int) (now : PyDateTime) (selfv : DtValue)
    (s : String) (newtask : Bool) : Except CastErr (Option PyDate) :=
  match dtByAccuracy loc now selfv .date with
  | .error e => .error e
  | .ok (.d sd) =>
    .ok ((recurrencyOffset sd s newtask).map fun off => sd.addDays off)
  | .ok _ => .error .attributeError

/-- Errors of parse_from_date: the final ValueError for an unparsable
string, or a failure bubbling up from the caster while anchoring. -/
inductive ParseErr where
  | unparsable
  | castFail (e : CastErr)
deriving DecidableEq, Repr

/-- Date.parse_from_date(string, newtask): sanitize, try construction,
then the three recurrency sub-parsers in order; a remaining date
result is wrapped back into a Date. -/
def parseFromDate (fp : String → Option ConcreteVal) (loc : Int) (now : PyDateTime)
    (selfv : DtValue) (s? : Option String) (newtask : Bool) : Except ParseErr DtValue :=
  let s := match s? with | some t => pyLower t | Option.none => ""
  match dateInit fp now (.str s) with
  | some v => .ok v
  | Option.none =>
    match parseOnlyMonthDayForRecurrency loc now selfv s newtask with
    | .error e => .error (.castFail e)
    | .ok (some r) => .ok (.d r)
    | .ok Option.none =>
      match parseNumericalFormatForRecurrency loc now selfv s newtask with
      | .error e => .error (.castFail e)
      | .ok (some r) => .ok (.d r)
      | .ok Option.none =>
        match parseTextRepresentationForRecurrency loc now selfv s newtask with
        | .error e => .error (.castFail e)
        | .ok (some r) => .ok (.d r)
        | .ok Option.none => .error .unparsable

/-! ## Fixtures shared by the concrete evaluations below -/

/-- A strptime stage that matches nothing (no claim-relevant string is
a locale-format date). -/
def fpNone : String → Option ConcreteVal := fun _ => Option.none

/-- A concrete clock reading: midnight of 2024-01-01, naive. -/
def now0 : PyDateTime := ⟨⟨2024, 1, 1⟩, 0, Option.none⟩

/-- A clock reading one microsecond after now0. -/
def nowEps : PyDateTime := ⟨⟨2024, 1, 1⟩, 1, Option.none⟩

/-- Noon of 2024-01-02, naive. -/
def tNoon : PyDateTime := ⟨⟨2024, 1, 2⟩, 43200000000, Option.none⟩

/-! ## Helper lemmas -/

/-- Raw Python equality is reflexive on every stored value. -/
theorem dtvEqB_refl (v : DtValue) : dtvEqB v v = true := by
  cases v with
  | fuzzy k => simp [dtvEqB]
  | d dd => simp [dtvEqB]
  | dt t => rcases h : t.tz with _ | z <;> simp [dtvEqB, pyDtEqB, h]

/-- A value whose accuracy is none of the three concrete levels is
fuzzy. -/
theorem accuracy_fuzzy_of_not_concrete (v : DtValue)
    (h1 : v.accuracy ≠ .date) (h2 : v.accuracy ≠ .datetime)
    (h3 : v.accuracy ≠ .timezone) : v.accuracy = .fuzzy := by
  cases hv : v.accuracy <;> simp_all

/-- A value of Except that is no error is a success. -/
theorem except_exists_ok {ε α : Type} (x : Except ε α)
    (h : ∀ e, x ≠ .error e) : ∃ w, x = .ok w := by
  cases x with
  | error e => exact absurd rfl (h e)
  | ok w => exact ⟨w, rfl⟩

/-- dt_by_accuracy succeeds whenever the requested accuracy is
concrete and any fuzzy tag has a delta_days entry. -/
theorem dtByAccuracy_ok_of_wf (loc : Int) (now : PyDateTime) (v : DtValue)
    (acc : Accuracy) (hv : v.wf = true) (hacc : acc ≠ .fuzzy) :
    ∃ w, dtByAccuracy loc now v acc = .ok w := by
  apply except_exists_ok
  intro e
  cases acc
  case fuzzy => exact absurd rfl hacc
  all_goals
    cases v with
    | fuzzy k =>
      have hk : k = 1 ∨ k = 2 ∨ k = 3 := by
        simp [DtValue.wf, SOON, SOMEDAY, NODATE] at hv
        tauto
      rcases hk with rfl | rfl | rfl <;> rcases htz : now.tz with _ | z <;>
        simp [dtByAccuracy, DtValue.accuracy, deltaDaysFuzzy, dtAddDays,
          dtByAccuracyAux, htz, SOON, SOMEDAY, NODATE]
    | d dd => simp [dtByAccuracy, DtValue.accuracy, dtByAccuracyAux]
    | dt t =>
      rcases htz : t.tz with _ | z <;>
        simp [dtByAccuracy, DtValue.accuracy, dtByAccuracyAux, htz]

/-- dt_by_accuracy on a fuzzy tag outside the delta_days table (in
particular the Now tag) fails with the KeyError, for any concrete
requested accuracy. -/
theorem dtByAccuracy_fuzzy_keyError (loc : Int) (now : PyDateTime) (k : Nat)
    (acc : Accuracy) (hacc : acc ≠ .fuzzy) (hk : ¬(k = 1 ∨ k = 2 ∨ k = 3)) :
    dtByAccuracy loc now (.fuzzy k) acc = .error .keyError := by
  have hk1 : ¬(k = 1) := fun h => hk (Or.inl h)
  have hk2 : ¬(k = 2) := fun h => hk (Or.inr (Or.inl h))
  have hk3 : ¬(k = 3) := fun h => hk (Or.inr (Or.inr h))
  simp [dtByAccuracy, DtValue.accuracy, hacc, deltaDaysFuzzy, SOON, SOMEDAY, NODATE,
    hk1, hk2, hk3]

/-- For a concrete requested accuracy, dt_by_accuracy never returns
the assertion failure. -/
theorem dtByAccuracy_ne_assert (loc : Int) (now : PyDateTime) (v : DtValue)
    (acc : Accuracy) (hacc : acc ≠ .fuzzy) :
    dtByAccuracy loc now v acc ≠ .error .assertionError := by
  by_cases hwf : v.wf = true
  · obtain ⟨w, hw⟩ := dtByAccuracy_ok_of_wf loc now v acc hwf hacc
    simp [hw]
  · cases v with
    | fuzzy k =>
      have hk : ¬(k = 1 ∨ k = 2 ∨ k = 3) := by
        simp [DtValue.wf, SOON, SOMEDAY, NODATE] at hwf
        tauto
      simp [dtByAccuracy_fuzzy_keyError loc now k acc hacc hk]
    | d dd => simp [DtValue.wf] at hwf
    | dt t => simp [DtValue.wf] at hwf

/-- Normalising both operands to a concrete accuracy never returns the
assertion failure. -/
theorem castBothTo_ne_assert (loc : Int) (now : PyDateTime) (a b : DtValue)
    (acc : Accuracy) (hacc : acc ≠ .fuzzy) :
    castBothTo loc now a b acc ≠ .error (.cast .assertionError) := by
  have ha := dtByAccuracy_ne_assert loc now a acc hacc
  have hb := dtByAccuracy_ne_assert loc now b acc hacc
  rcases hx : dtByAccuracy loc now a acc with ea | x <;>
    rcases hy : dtByAccuracy loc now b acc with eb | y <;>
      rw [hx] at ha <;> rw [hy] at hb <;>
        simp only [castBothTo, hx, hy, ne_eq, Except.error.injEq,
          OpError.cast.injEq] <;>
        intro hcontra
  · exact ha (by rw [hcontra])
  · exact ha (by rw [hcontra])
  · exact hb (by rw [hcontra])
  · simp at hcontra

/-- Normalising both operands succeeds at a concrete accuracy when
both fuzzy tags have delta_days entries. -/
theorem castBothTo_ok_of_wf (loc : Int) (now : PyDateTime) (a b : DtValue)
    (acc : Accuracy) (ha : a.wf = true) (hb : b.wf = true) (hacc : acc ≠ .fuzzy) :
    ∃ p, castBothTo loc now a b acc = .ok p := by
  obtain ⟨x, hx⟩ := dtByAccuracy_ok_of_wf loc now a acc ha hacc
  obtain ⟨y, hy⟩ := dtByAccuracy_ok_of_wf loc now b acc hb hacc
  exact ⟨(.val x, .val y), by simp [castBothTo, hx, hy]⟩

/-- The accuracy the spec's normalisation rule selects: the first of
date, datetime, timezone equal to either operand's accuracy. -/
def firstCommonAccuracy (x y : Accuracy) : Option Accuracy :=
  if x = .date ∨ y = .date then some .date
  else if x = .datetime ∨ y = .datetime then some .datetime
  else if x = .timezone ∨ y = .timezone then some .timezone
  else Option.none

/-- _cast_for_operation on two Dates never returns the assertion
failure of the low-level caster, whatever the operands store. -/
theorem castForOperation_ne_assert (loc : Int) (now : PyDateTime) (a b : DtValue)
    (ic : Bool) :
    castForOperation loc now a (.dte b) ic ≠ .error (.cast .assertionError) := by
  simp only [castForOperation]
  split_ifs with h1 h2 h3 h4
  · simp
  · exact castBothTo_ne_assert loc now a b .date (by simp)
  · exact castBothTo_ne_assert loc now a b .datetime (by simp)
  · exact castBothTo_ne_assert loc now a b .timezone (by simp)
  · exfalso
    have hga : a.accuracy = .fuzzy :=
      accuracy_fuzzy_of_not_concrete a (fun hh => h2 (Or.inl hh))
        (fun hh => h3 (Or.inl hh)) (fun hh => h4 (Or.inl hh))
    have hgb : b.accuracy = .fuzzy :=
      accuracy_fuzzy_of_not_concrete b (fun hh => h2 (Or.inr hh))
        (fun hh => h3 (Or.inr hh)) (fun hh => h4 (Or.inr hh))
    exact h1 (by rw [hga, hgb])

/-- _cast_for_operation on two Dates succeeds outright when both fuzzy
tags have delta_days entries. -/
theorem castForOperation_ok_of_wf (loc : Int) (now : PyDateTime) (a b : DtValue)
    (ic : Bool) (ha : a.wf = true) (hb : b.wf = true) :
    ∃ p, castForOperation loc now a (.dte b) ic = .ok p := by
  simp only [castForOperation]
  split_ifs with h1 h2 h3 h4
  · exact ⟨(.val a, .val b), rfl⟩
  · exact castBothTo_ok_of_wf loc now a b .date ha hb (by simp)
  · exact castBothTo_ok_of_wf loc now a b .datetime ha hb (by simp)
  · exact castBothTo_ok_of_wf loc now a b .timezone ha hb (by simp)
  · exfalso
    have hga : a.accuracy = .fuzzy :=
      accuracy_fuzzy_of_not_concrete a (fun hh => h2 (Or.inl hh))
        (fun hh => h3 (Or.inl hh)) (fun hh => h4 (Or.inl hh))
    have hgb : b.accuracy = .fuzzy :=
      accuracy_fuzzy_of_not_concrete b (fun hh => h2 (Or.inr hh))
        (fun hh => h3 (Or.inr hh)) (fun hh => h4 (Or.inr hh))
    exact h1 (by rw [hga, hgb])

/-! ## C6 -/

/-- C6: comparing a Date to a bare timedelta raises for every
comparison operator (==, <, <=, >, >=), while the arithmetic
normalisation returns the raw stored value and the duration unchanged
and + / - are applied directly to that pair. -/
theorem timedelta_operand_rules (loc : Int) (now : PyDateTime) (v : DtValue) (t : Int) :
    dateEq loc now v (.delta t) = .error .invalidComparison ∧
    dateLt loc now v (.delta t) = .error .invalidComparison ∧
    dateLe loc now v (.delta t) = .error .invalidComparison ∧
    dateGt loc now v (.delta t) = .error .invalidComparison ∧
    dateGe loc now v (.delta t) = .error .invalidComparison ∧
    castForOperation loc now v (.delta t) false = .ok (.val v, .td t) ∧
    dateAddOp loc now v (.delta t) = opAddRaw (.val v) (.td t) ∧
    dateSubOp loc now v (.delta t) = opSubRaw (.val v) (.td t) :=
  ⟨rfl, rfl, rfl, rfl, rfl, rfl, rfl, rfl⟩

/-! ## C8 -/

/-- C8: casting a date-accuracy value to datetime accuracy yields the
naive midnight of that day, and casting that back to date accuracy
returns the original calendar date, for every date; the datetime to
date direction is not a round trip: noon of 2024-01-02 truncates to
the date and comes back as midnight, not noon. -/
theorem date_to_datetime_roundtrip (loc loc2 : Int) (now now2 : PyDateTime)
    (dd : PyDate) :
    dtByAccuracy loc now (.d dd) .datetime = .ok (.dt ⟨dd, 0, Option.none⟩) ∧
    dtByAccuracy loc2 now2 (.dt ⟨dd, 0, Option.none⟩) .date = .ok (.d dd) ∧
    dtByAccuracy 0 now0 (.dt tNoon) .date = .ok (.d ⟨2024, 1, 2⟩) ∧
    dtByAccuracy 0 now0 (.d ⟨2024, 1, 2⟩) .datetime =
      .ok (.dt ⟨⟨2024, 1, 2⟩, 0, Option.none⟩) ∧
    (⟨⟨2024, 1, 2⟩, 0, Option.none⟩ : PyDateTime) ≠ tNoon := by
  refine ⟨?_, ?_, by decide, by decide, by decide⟩
  · simp [dtByAccuracy, DtValue.accuracy, dtByAccuracyAux]
  · simp [dtByAccuracy, DtValue.accuracy, dtByAccuracyAux]

/-! ## C10 -/

/-- C10: the lowercase now token and the int code 0 do store a live
clock reading, but the string 'NOW' reaches the lowercased LOOKUP
fallback of __parse_dt_str and stores the raw Now sentinel (tag 0), on
which the machine-string formatter's fuzzy table raises KeyError: the
claimed invariant is the code's own intent (the init comment says the
falsy fuzzy NOW was dropped and __str__ omits it), but this
construction path breaks it. -/
theorem now_sentinel_stored_code_bug :
    dateInit fpNone now0 (.str "now") = some (.dt now0) ∧
    dateInit fpNone now0 (.int 0) = some (.dt now0) ∧
    dateInit fpNone now0 (.str "NOW") = some (.fuzzy NOW) ∧
    (DtValue.fuzzy NOW).accuracy = .fuzzy ∧
    pyStrDate (.fuzzy NOW) = Option.none := by decide

end GtgDates

namespace GtgDates

/-! ## C1 -/

/-- C1: when both operands of a comparison or arithmetic operation
have the same accuracy their raw stored values are returned unchanged;
otherwise both are cast to the first accuracy among date, datetime,
timezone equal to either operand's accuracy, and that cast always
succeeds; in particular a date-accuracy operand against a
timezone-accuracy operand (either way round) never raises and
truncates the timezone-accuracy side to its stored calendar date. -/
theorem operands_cast_to_first_common_accuracy (loc : Int) (now : PyDateTime)
    (a b : DtValue) (ic : Bool) (ha : a.wf = true) (hb : b.wf = true) :
    (a.accuracy = b.accuracy →
      castForOperation loc now a (.dte b) ic = .ok (.val a, .val b)) ∧
    (∀ acc, a.accuracy ≠ b.accuracy →
      firstCommonAccuracy a.accuracy b.accuracy = some acc →
      castForOperation loc now a (.dte b) ic = castBothTo loc now a b acc ∧
      ∃ x y, castBothTo loc now a b acc = .ok (.val x, .val y)) ∧
    (∀ dd t, a = .d dd → b = .dt t → t.tz.isSome = true →
      castForOperation loc now a (.dte b) ic = .ok (.val (.d dd), .val (.d t.date))) ∧
    (∀ dd t, a = .dt t → b = .d dd → t.tz.isSome = true →
      castForOperation loc now a (.dte b) ic = .ok (.val (.d t.date), .val (.d dd))) := by
  refine ⟨?_, ?_, ?_, ?_⟩
  · intro hsame
    simp [castForOperation, hsame]
  · intro acc hne hfca
    unfold firstCommonAccuracy at hfca
    split_ifs at hfca with g1 g2 g3 <;> injection hfca with hacc <;> subst hacc
    · constructor
      · simp [castForOperation, hne, g1]
      · obtain ⟨p, hp⟩ := castBothTo_ok_of_wf loc now a b .date ha hb (by simp)
        obtain ⟨x, hx⟩ := dtByAccuracy_ok_of_wf loc now a .date ha (by simp)
        obtain ⟨y, hy⟩ := dtByAccuracy_ok_of_wf loc now b .date hb (by simp)
        exact ⟨x, y, by simp [castBothTo, hx, hy]⟩
    · constructor
      · simp [castForOperation, hne, g1, g2]
      · obtain ⟨x, hx⟩ := dtByAccuracy_ok_of_wf loc now a .datetime ha (by simp)
        obtain ⟨y, hy⟩ := dtByAccuracy_ok_of_wf loc now b .datetime hb (by simp)
        exact ⟨x, y, by simp [castBothTo, hx, hy]⟩
    · constructor
      · simp [castForOperation, hne, g1, g2, g3]
      · obtain ⟨x, hx⟩ := dtByAccuracy_ok_of_wf loc now a .timezone ha (by simp)
        obtain ⟨y, hy⟩ := dtByAccuracy_ok_of_wf loc now b .timezone hb (by simp)
        exact ⟨x, y, by simp [castBothTo, hx, hy]⟩
  · rintro dd t rfl rfl htz
    rcases ht : t.tz with _ | z
    · rw [ht] at htz; simp at htz
    · simp [castForOperation, DtValue.accuracy, ht, castBothTo, dtByAccuracy,
        dtByAccuracyAux]
  · rintro dd t rfl rfl htz
    rcases ht : t.tz with _ | z
    · rw [ht] at htz; simp at htz
    · simp [castForOperation, DtValue.accuracy, ht, castBothTo, dtByAccuracy,
        dtByAccuracyAux]

/-- Witness for C1 at concrete operands: a plain date against an aware
datetime carrying offset +60, compared at local offset 0. -/
theorem operands_cast_to_first_common_accuracy_witness :
    castForOperation 0 now0 (.d ⟨2024, 1, 5⟩)
        (.dte (.dt ⟨⟨2024, 1, 6⟩, 3600000000, some 60⟩)) true =
      .ok (.val (.d ⟨2024, 1, 5⟩), .val (.d ⟨2024, 1, 6⟩)) := by
  have h := operands_cast_to_first_common_accuracy 0 now0 (.d ⟨2024, 1, 5⟩)
    (.dt ⟨⟨2024, 1, 6⟩, 3600000000, some 60⟩) true (by decide) (by decide)
  exact h.2.2.1 ⟨2024, 1, 5⟩ ⟨⟨2024, 1, 6⟩, 3600000000, some 60⟩ rfl rfl (by decide)

/-! ## C9 -/

/-- C9: the assertion-style failure of the low-level accuracy caster
is unreachable from operand normalisation for every pair of Date
operands whatever they store, and for every pair of constructible
Dates whose fuzzy tags have delta_days entries the normalisation
succeeds outright. -/
theorem caster_assertion_unreachable (loc : Int) (now : PyDateTime)
    (a b : DtValue) (ic : Bool) (ha : a.wf = true) (hb : b.wf = true) :
    (∀ a2 b2 : DtValue, ∀ ic2 : Bool,
      castForOperation loc now a2 (.dte b2) ic2 ≠ .error (.cast .assertionError)) ∧
    (∃ p, castForOperation loc now a (.dte b) ic = .ok p) := by
  exact ⟨fun a2 b2 ic2 => castForOperation_ne_assert loc now a2 b2 ic2,
    castForOperation_ok_of_wf loc now a b ic ha hb⟩

/-- Witness for C9 at concrete operands: a soon-tagged fuzzy Date
against a plain date. -/
theorem caster_assertion_unreachable_witness :
    castForOperation 0 now0 (.fuzzy SOON) (.dte (.d ⟨2024, 3, 1⟩)) true ≠
      .error (.cast .assertionError) := by
  have h := caster_assertion_unreachable 0 now0 (.fuzzy SOON) (.d ⟨2024, 3, 1⟩) true
    (by decide) (by decide)
  exact h.1 (.fuzzy SOON) (.d ⟨2024, 3, 1⟩) true

/-! ## C5 -/

/-- C5: casting a fuzzy Date to any concrete accuracy first resolves
it to now plus a fixed day offset (15 for Soon, 365 for Someday, 9999
for NoDate) and then casts that concrete datetime to the requested
accuracy. -/
theorem fuzzy_cast_adds_fixed_offset (loc : Int) (now : PyDateTime) (acc : Accuracy)
    (hnaive : now.tz = Option.none) (hacc : acc ≠ .fuzzy) :
    dtByAccuracy loc now (.fuzzy SOON) acc =
      dtByAccuracy loc now (.dt (dtAddDays now 15)) acc ∧
    dtByAccuracy loc now (.fuzzy SOMEDAY) acc =
      dtByAccuracy loc now (.dt (dtAddDays now 365)) acc ∧
    dtByAccuracy loc now (.fuzzy NODATE) acc =
      dtByAccuracy loc now (.dt (dtAddDays now 9999)) acc := by
  cases acc
  case fuzzy => exact absurd rfl hacc
  all_goals
    refine ⟨?_, ?_, ?_⟩ <;>
      simp [dtByAccuracy, DtValue.accuracy, deltaDaysFuzzy, dtAddDays, hnaive,
        SOON, SOMEDAY, NODATE]

/-- Witness for C5: the Soon cast at date accuracy anchored at the
concrete clock now0. -/
theorem fuzzy_cast_adds_fixed_offset_witness :
    dtByAccuracy 0 now0 (.fuzzy SOON) .date =
      dtByAccuracy 0 now0 (.dt (dtAddDays now0 15)) .date :=
  (fuzzy_cast_adds_fixed_offset 0 now0 .date rfl (by decide)).1

end GtgDates

namespace GtgDates

/-! ## C4 -/

/-- An input whose construction never reads the live clock: everything
except the exact lowercase string 'now' and the int code 0. -/
def clockFreeInput : DateInput → Prop
  | .str s => s ≠ "now"
  | .int n => n ≠ 0
  | _ => True

/-- C4 amended: construction is a pure function of the input for every
accepted literal except the 'now' token and the code 0 (whose paths
read the live clock), and comparing any constructed value with itself
through the == operator yields true; so Date(x) == Date(x) holds for
every clock-free input, and for 'now' exactly when both constructions
observe the same clock reading. -/
theorem date_eq_reflexive_amended (fp : String → Option ConcreteVal) (loc : Int)
    (now1 now2 nowC : PyDateTime) (x : DateInput) (hx : clockFreeInput x) :
    dateInit fp now1 x = dateInit fp now2 x ∧
    (∀ v, dateInit fp now1 x = some v → dateEq loc nowC v (.dte v) = .ok true) := by
  constructor
  · cases x with
    | str s =>
      have hs : s ≠ "now" := hx
      by_cases h0 : s = "None" ∨ s = ""
      · simp [dateInit, h0]
      · rcases h1 : parseISODate s with _ | dd <;>
          rcases h2 : parseISODateTime s with _ | t <;>
            rcases h3 : fp s with _ | c <;>
              simp [dateInit, parseDtStr, h0, h1, h2, h3, hs]
    | int n =>
      have hn : n ≠ 0 := hx
      simp [dateInit, hn]
    | noneInput => rfl
    | pyDate dd => rfl
    | pyDateTime t => rfl
    | gtgDate v => rfl
  · intro v _hv
    simp [dateEq, castForOperation, Except.map, opValEqB, dtvEqB_refl]

/-- Counterexample to C4 as stated: two constructions from the literal
'now' at clock readings one microsecond apart store different
instants, and comparing them with == yields false. -/
theorem date_eq_now_counterexample :
    dateInit fpNone now0 (.str "now") = some (.dt now0) ∧
    dateInit fpNone nowEps (.str "now") = some (.dt nowEps) ∧
    dateEq 0 now0 (.dt now0) (.dte (.dt nowEps)) = .ok false := by decide

/-- Witness for C4's amended theorem at the literal 'soon': the two
constructions agree and the constructed value equals itself. -/
theorem date_eq_reflexive_amended_witness :
    dateInit fpNone now0 (.str "soon") = dateInit fpNone nowEps (.str "soon") ∧
    dateEq 0 now0 (.fuzzy SOON) (.dte (.fuzzy SOON)) = .ok true := by
  have h := date_eq_reflexive_amended fpNone 0 now0 nowEps now0 (.str "soon")
    (by simp [clockFreeInput])
  exact ⟨h.1, h.2 (.fuzzy SOON) (by decide)⟩

end GtgDates

namespace GtgDates

/-! ## C2 -/

/-- C2 amended: parse_from_date('month', newtask = false) returns the
anchor's calendar date advanced by the calendar.mdays entry of the
anchor's month, which is 28 for February regardless of leap years (not
the leap-aware number of days in that month). -/
theorem parse_from_date_month_amended (fp : String → Option ConcreteVal) (loc : Int)
    (now : PyDateTime) (v : DtValue) (ad : PyDate)
    (hfp : fp "month" = Option.none)
    (hcast : dtByAccuracy loc now v .date = .ok (.d ad)) :
    parseFromDate fp loc now v (some "month") false =
      .ok (.d (ad.addDays (mdays.getD ad.month 0))) := by
  have hlow : pyLower "month" = "month" := by decide
  have hiso1 : parseISODate "month" = Option.none := by decide
  have hiso2 : parseISODateTime "month" = Option.none := by decide
  have hnat : pyToNat "month" = Option.none := by decide
  have hnum1 : parseSlashYmd "month" = Option.none := by decide
  have hnum2 : parseYmd8 "month" = Option.none := by decide
  have hnum3 : parseMd4 "month" = Option.none := by decide
  simp [parseFromDate, hlow, dateInit, parseDtStr, hiso1, hiso2, hfp, lookupStr,
    parseOnlyMonthDayForRecurrency, hcast, monthDayFrom, hnat,
    parseNumericalFormatForRecurrency, numericalFrom, hnum1, hnum2, hnum3,
    parseTextRepresentationForRecurrency, recurrencyOffset]

/-- Counterexample to C2 as stated: anchored at 2024-02-10, in a leap
February, parse_from_date('month', newtask = false) adds 28 days and
yields 2024-03-09, not the 29-day result 2024-03-10 the number of days
in that month would give. -/
theorem parse_from_date_month_leap_counterexample :
    parseFromDate fpNone 0 now0 (.d ⟨2024, 2, 10⟩) (some "month") false =
      .ok (.d ⟨2024, 3, 9⟩) ∧
    PyDate.addDays ⟨2024, 2, 10⟩ 29 = ⟨2024, 3, 10⟩ ∧
    (⟨2024, 3, 9⟩ : PyDate) ≠ ⟨2024, 3, 10⟩ := by decide

/-- Witness for C2's amended theorem anchored at 2024-05-03 (May has
31 days in both tables). -/
theorem parse_from_date_month_amended_witness :
    parseFromDate fpNone 0 now0 (.d ⟨2024, 5, 3⟩) (some "month") false =
      .ok (.d (PyDate.addDays ⟨2024, 5, 3⟩ (mdays.getD (PyDate.month ⟨2024, 5, 3⟩) 0))) :=
  parse_from_date_month_amended fpNone 0 now0 (.d ⟨2024, 5, 3⟩) ⟨2024, 5, 3⟩ rfl
    (by decide)

/-! ## C3 -/

/-- A weekday-name offset is indifferent to the newtask flag. -/
theorem recurrencyOffset_weekday (sd : PyDate) (s : String) (i : Nat)
    (h : weekdayIdx s = some i) (nt1 nt2 : Bool) :
    recurrencyOffset sd s nt1 = recurrencyOffset sd s nt2 := by
  have hd : s ≠ "day" := by rintro rfl; simp [weekdayIdx] at h
  have hod : s ≠ "other-day" := by rintro rfl; simp [weekdayIdx] at h
  have hw : s ≠ "week" := by rintro rfl; simp [weekdayIdx] at h
  have hm : s ≠ "month" := by rintro rfl; simp [weekdayIdx] at h
  have hy : s ≠ "year" := by rintro rfl; simp [weekdayIdx] at h
  simp [recurrencyOffset, hd, hod, hw, hm, hy]

/-- C3 amended: the newtask flag does not shift every
recurrence-relative phrase by one day; instead, weekday phrases are
identical for both flag values, and every duration phrase maps to the
anchor advanced by 0 days when the task is new and by its full period
otherwise (1 for day, 2 for other-day, 7 for week, the calendar.mdays
entry for month, 365 plus the leap bit for year). -/
theorem recurrency_newtask_offsets_amended (loc : Int) (now : PyDateTime)
    (v : DtValue) (sd : PyDate)
    (hcast : dtByAccuracy loc now v .date = .ok (.d sd)) :
    (∀ s i, weekdayIdx s = some i →
      parseTextRepresentationForRecurrency loc now v s true =
        parseTextRepresentationForRecurrency loc now v s false) ∧
    (parseTextRepresentationForRecurrency loc now v "day" true =
        .ok (some (sd.addDays 0)) ∧
      parseTextRepresentationForRecurrency loc now v "day" false =
        .ok (some (sd.addDays 1))) ∧
    (parseTextRepresentationForRecurrency loc now v "other-day" true =
        .ok (some (sd.addDays 0)) ∧
      parseTextRepresentationForRecurrency loc now v "other-day" false =
        .ok (some (sd.addDays 2))) ∧
    (parseTextRepresentationForRecurrency loc now v "week" true =
        .ok (some (sd.addDays 0)) ∧
      parseTextRepresentationForRecurrency loc now v "week" false =
        .ok (some (sd.addDays 7))) ∧
    (parseTextRepresentationForRecurrency loc now v "month" true =
        .ok (some (sd.addDays 0)) ∧
      parseTextRepresentationForRecurrency loc now v "month" false =
        .ok (some (sd.addDays (mdays.getD sd.month 0)))) ∧
    (parseTextRepresentationForRecurrency loc now v "year" true =
        .ok (some (sd.addDays 0)) ∧
      parseTextRepresentationForRecurrency loc now v "year" false =
        .ok (some (sd.addDays (365 + if isleap sd.year then 1 else 0)))) := by
  refine ⟨?_, ?_, ?_, ?_, ?_, ?_⟩
  · intro s i h
    simp only [parseTextRepresentationForRecurrency, hcast]
    rw [recurrencyOffset_weekday sd s i h true false]
  all_goals
    exact ⟨by simp [parseTextRepresentationForRecurrency, hcast, recurrencyOffset],
      by simp [parseTextRepresentationForRecurrency, hcast, recurrencyOffset]⟩

/-- Counterexample to C3 as stated: anchored at Monday 2024-01-01 the
phrase 'tuesday' parses to 2024-01-02 for both newtask values, so the
newtask = false result is not the newtask = true result shifted by one
extra day. -/
theorem recurrency_weekday_not_shifted_counterexample :
    parseFromDate fpNone 0 now0 (.d ⟨2024, 1, 1⟩) (some "tuesday") true =
      .ok (.d ⟨2024, 1, 2⟩) ∧
    parseFromDate fpNone 0 now0 (.d ⟨2024, 1, 1⟩) (some "tuesday") false =
      .ok (.d ⟨2024, 1, 2⟩) ∧
    (⟨2024, 1, 2⟩ : PyDate) ≠ PyDate.addDays ⟨2024, 1, 2⟩ 1 := by decide

/-- Witness for C3's amended theorem: the week phrase anchored at
2024-01-01 with newtask = false advances by the full seven days. -/
theorem recurrency_newtask_offsets_amended_witness :
    parseTextRepresentationForRecurrency 0 now0 (.d ⟨2024, 1, 1⟩) "week" false =
      .ok (some (PyDate.addDays ⟨2024, 1, 1⟩ 7)) :=
  ((recurrency_newtask_offsets_amended 0 now0 (.d ⟨2024, 1, 1⟩) ⟨2024, 1, 1⟩
    (by decide)).2.2.2.1).2

end GtgDates

namespace GtgDates

/-! ## C7 -/

/-- Comparing two dates sharing year and month compares the days. -/
theorem leB_same_ym (y m a b : Nat) :
    PyDate.leB ⟨y, m, a⟩ ⟨y, m, b⟩ = decide (a ≤ b) := by
  have hy : compare y y = Ordering.eq := Nat.compare_eq_eq.mpr rfl
  have hm : compare m m = Ordering.eq := Nat.compare_eq_eq.mpr rfl
  by_cases h : a ≤ b
  · rcases Nat.lt_or_ge a b with hlt | hge
    · simp [PyDate.leB, pdateCmp, hy, hm, Ordering.then, Nat.compare_eq_lt.mpr hlt, h]
      decide
    · have hab : a = b := Nat.le_antisymm h hge
      subst hab
      simp [PyDate.leB, pdateCmp, hy, hm, Ordering.then, Nat.compare_eq_eq.mpr rfl, h]
      decide
  · have hgt : b < a := Nat.lt_of_not_le h
    simp [PyDate.leB, pdateCmp, hy, hm, Ordering.then, Nat.compare_eq_gt.mpr hgt, h]
    decide

/-- The month after a date's month, rolling December into January of
the next year. -/
def nextMonthOf (d : PyDate) : Nat × Nat :=
  if d.month = 12 then (d.year + 1, 1) else (d.year, d.month + 1)

/-- C7 amended: a bare 1-2 digit day number d without leading zero,
1 <= d <= 31, resolves against today: if today's day-of-month is
strictly below d and the current month has a day d, the result is day
d of the current month; if today's day-of-month is at least d and the
next month (December rolling to January) has a day d, the result is
day d of the next month.  (The provisos are necessary: when the
relevant month lacks day d the code falls back differently, see the
counterexample.) -/
theorem bare_day_of_month_amended (fp : String → Option ConcreteVal)
    (now : PyDateTime) (today : PyDate) (s : String) (mday : Nat)
    (hvalid : ValidDate today)
    (hnum : pyToNat s = some mday) (hzero : pyStartsWith0 s = false)
    (hlow : pyLower s = s) (h1 : 1 ≤ mday) (h31 : mday ≤ 31)
    (hinit : dateInit fp now (.str s) = Option.none) :
    (today.day < mday → mday ≤ daysInMonth today.year today.month →
      dateParse fp now today (some s) = some (.d ⟨today.year, today.month, mday⟩)) ∧
    (mday ≤ today.day →
      mday ≤ daysInMonth (nextMonthOf today).1 (nextMonthOf today).2 →
      dateParse fp now today (some s) =
        some (.d ⟨(nextMonthOf today).1, (nextMonthOf today).2, mday⟩)) := by
  have hg1 : ¬(mday < 1) := by omega
  have hg2 : ¬(31 < mday) := by omega
  constructor
  · intro hlt hdim
    have hroll : PyDate.leB ⟨today.year, today.month, mday⟩ today =
        decide (mday ≤ today.day) :=
      leB_same_ym today.year today.month mday today.day
    have hroll2 : PyDate.leB ⟨today.year, today.month, mday⟩ today = false := by
      rw [hroll]; exact decide_eq_false (by omega)
    simp [dateParse, hlow, hinit, parseOnlyMonthDay, monthDayFrom, hnum, hg1, hg2,
      hzero, hdim, hroll2]
  · intro hge hdim2
    have hdim1 : mday ≤ daysInMonth today.year today.month := by
      have hd := hvalid.2.2.2.2.2
      omega
    have hroll : PyDate.leB ⟨today.year, today.month, mday⟩ today =
        decide (mday ≤ today.day) :=
      leB_same_ym today.year today.month mday today.day
    have hroll2 : PyDate.leB ⟨today.year, today.month, mday⟩ today = true := by
      rw [hroll]; exact decide_eq_true hge
    by_cases h12 : today.month = 12
    · rw [h12] at hdim1 hroll2
      simp only [nextMonthOf, h12, ite_true] at hdim2 ⊢
      simp [dateParse, hlow, hinit, parseOnlyMonthDay, monthDayFrom, hnum, hg1, hg2,
        hzero, hdim1, hroll2, h12, hdim2]
    · simp only [nextMonthOf, h12, ite_false] at hdim2 ⊢
      simp [dateParse, hlow, hinit, parseOnlyMonthDay, monthDayFrom, hnum, hg1, hg2,
        hzero, hdim1, hroll2, h12, hdim2]

/-- Counterexample to C7 as stated: on 2024-01-31 the input '31'
satisfies day-of-month >= 31, but February 2024 has no 31st, so the
parse returns 2024-01-31 itself (the current month, today), not day 31
of the next month. -/
theorem bare_day_of_month_counterexample :
    dateParse fpNone now0 ⟨2024, 1, 31⟩ (some "31") = some (.d ⟨2024, 1, 31⟩) ∧
    (PyDate.month ⟨2024, 1, 31⟩ ≠ 2) := by decide

/-- Witness for C7's amended theorem: parsing '15' on 2024-01-10
yields 2024-01-15. -/
theorem bare_day_of_month_amended_witness :
    dateParse fpNone now0 ⟨2024, 1, 10⟩ (some "15") =
      some (.d ⟨2024, 1, 15⟩) :=
  (bare_day_of_month_amended fpNone now0 ⟨2024, 1, 10⟩ "15" 15 (by decide) (by decide)
      (by decide) (by decide) (by decide) (by decide) (by decide)).1
    (by decide) (by decide)

end GtgDates
